import Mathlib

/-!
Shallow embedding of the civic-issue reporting service (`src/main.py`,
`src/models.py`, `src/database.py`) and proofs about its data model,
access-control rules and state transitions.

Modelling conventions:
* SQLAlchemy tables become Lean structures; a database session becomes an
  explicit `DB` value threaded through each handler.
* Each FastAPI handler becomes a function `... → Except HttpError α × DB`
  (the second component is the database after the request; handlers that
  raise `HTTPException` leave the database unchanged, as the code commits
  only after all checks pass).
* JWT encode/decode is an out-of-scope collaborator: a validated bearer
  token is modelled by its decoded payload `Token` (subject claim and role
  claim).  Only the server signs tokens, so every token a client can
  present is a payload the server once issued.
* bcrypt is an out-of-scope collaborator: `get_password_hash` is modelled
  as an injective tagging function and `verify_password` as the
  corresponding check, which preserves exactly the interface the handlers
  rely on.
* Python floats (latitude/longitude) are modelled as `Int`; no claim
  depends on their arithmetic.
-/

namespace CivicConnect

/-- Role column of the `users` table (`models.UserRole`). -/
inductive UserRole where
  | user
  | admin
deriving DecidableEq, Repr

/-- Category column of the `reports` table (`models.ReportCategory`). -/
inductive ReportCategory where
  | waste
  | traffic
  | infra
  | other
deriving DecidableEq, Repr

/-- Status column of the `reports` table (`models.ReportStatus`). -/
inductive ReportStatus where
  | pending
  | resolved
deriving DecidableEq, Repr

/-- Row of the `users` table (`models.User`). -/
structure User where
  id : Nat
  email : String
  hashedPassword : String
  fullName : String
  communityId : Nat
  isActive : Bool
  role : UserRole
deriving DecidableEq, Repr

/-- Row of the `communities` table (`models.Community`). -/
structure Community where
  id : Nat
  name : String
  city : String
deriving DecidableEq, Repr

/-- Row of the `reports` table (`models.Report`). -/
structure Report where
  id : Nat
  caption : String
  imageUrl : String
  latitude : Int
  longitude : Int
  category : ReportCategory
  status : ReportStatus
  isEmergency : Bool
  timestamp : Nat
  ownerId : Nat
  communityId : Nat
deriving DecidableEq, Repr

/-- Row of the `feedback` table (`models.Feedback`). -/
structure Feedback where
  id : Nat
  rating : Int
  comment : Option String
  timestamp : Nat
  reportId : Nat
  ownerId : Nat
deriving DecidableEq, Repr

/-- The relational store: all four tables plus the autoincrement counters
for the primary keys the handlers create rows in. -/
structure DB where
  users : List User
  communities : List Community
  reports : List Report
  feedbacks : List Feedback
  nextUserId : Nat
  nextReportId : Nat
  nextFeedbackId : Nat
deriving DecidableEq, Repr

/-- Decoded payload of a validated bearer token.  `create_access_token`
puts the subject email in `sub` and the role value in `role`; a forged or
tampered token never validates, so only payloads of this shape reach
`get_current_user`.  `sub` is optional because `payload.get("sub")` may be
absent. -/
structure Token where
  sub : Option String
  role : UserRole
deriving DecidableEq, Repr

/-- An `HTTPException(status_code=..., detail=...)` raised by a handler. -/
structure HttpError where
  code : Nat
  detail : String
deriving DecidableEq, Repr

/-- Model of bcrypt hashing (collaborator, out of scope): an injective tag. -/
def get_password_hash (password : String) : String :=
  "bcrypt$" ++ password

/-- Model of `pwd_context.verify` (collaborator, out of scope). -/
def verify_password (plain hashed : String) : Bool :=
  hashed == get_password_hash plain

/-- `get_user_by_email` in `main.py`: first row whose email column equals
the argument exactly (case-sensitive). -/
def get_user_by_email (db : DB) (email : String) : Option User :=
  db.users.find? fun u => u.email == email

/-- `get_current_user` in `main.py`: read the `sub` claim, fail 401 when it
is missing, else load the user row by that email, failing 401 when no such
row exists.  The token's `role` claim is never consulted. -/
def get_current_user (token : Token) (db : DB) : Except HttpError User :=
  match token.sub with
  | none => .error ⟨401, "Could not validate credentials"⟩
  | some email =>
    match get_user_by_email db email with
    | none => .error ⟨401, "Could not validate credentials"⟩
    | some u => .ok u

/-- Response body of `POST /token`. -/
structure TokenResponse where
  access_token : Token
  token_type : String
  user_role : UserRole
deriving DecidableEq, Repr

/-- `login_for_access_token` in `main.py` (`POST /token`). -/
def login_for_access_token (db : DB) (email password user_type : String) :
    Except HttpError TokenResponse :=
  match get_user_by_email db email with
  | none => .error ⟨401, "Incorrect email or password"⟩
  | some user =>
    if ¬ verify_password password user.hashedPassword then
      .error ⟨401, "Incorrect email or password"⟩
    else if user_type = "admin" ∧ user.role ≠ UserRole.admin then
      .error ⟨403, "Access denied. Not an admin."⟩
    else
      .ok ⟨⟨some user.email, user.role⟩, "bearer", user.role⟩

/-- Model of Python `str.lower()` as used on emails in `register_user`.
Lean's `Char.toLower` lowers exactly the ASCII letters; the reserved-email
comparison in the claims only exercises ASCII case. -/
def str_lower (s : String) : String :=
  ⟨s.data.map Char.toLower⟩

/-- Result of `POST /register`: a re-rendered `register.html` with an
`error` string, or a `RedirectResponse`. -/
inductive RegisterResponse where
  | formError (error : String)
  | redirect (url : String) (status_code : Nat)
deriving DecidableEq, Repr

/-- `register_user` in `main.py` (`POST /register`).  `adminEmail` is the
`ADMIN_EMAIL` environment value. -/
def register_user (adminEmail : String) (email full_name password : String)
    (db : DB) : RegisterResponse × DB :=
  if str_lower email = str_lower adminEmail then
    (.formError "This email is reserved.", db)
  else
    match get_user_by_email db email with
    | some _ => (.formError "Email already registered", db)
    | none =>
      let u : User :=
        { id := db.nextUserId
          email := email
          hashedPassword := get_password_hash password
          fullName := full_name
          communityId := 1
          isActive := true
          role := UserRole.user }
      (.redirect "/login" 303,
        { db with users := db.users ++ [u], nextUserId := db.nextUserId + 1 })

/-- Python `filename.replace('..', '')`: scan left to right, deleting each
non-overlapping occurrence of `".."`. -/
def replaceDD : List Char → List Char
  | [] => []
  | [c] => [c]
  | a :: b :: rest =>
    if a = '.' ∧ b = '.' then replaceDD rest
    else a :: replaceDD (b :: rest)

/-- String wrapper for `replaceDD`, the embedding of
`file.filename.replace('..', '')`. -/
def pyReplaceDD (s : String) : String :=
  ⟨replaceDD s.data⟩

/-- The `safe_filename` computed by `create_report`:
`f"{int(datetime.now().timestamp())}_{file.filename.replace('..', '')}"`. -/
def safe_filename (now : Nat) (filename : String) : String :=
  Nat.repr now ++ "_" ++ pyReplaceDD filename

/-- `create_report` in `main.py` (`POST /api/reports`).  `now` is the
integral server clock reading used both for the filename prefix and (as
the model of `func.now()`) for the row timestamp. -/
def create_report (token : Token) (caption : String) (latitude longitude : Int)
    (category : ReportCategory) (is_emergency : Bool) (filename : String)
    (now : Nat) (db : DB) : Except HttpError Report × DB :=
  match get_current_user token db with
  | .error e => (.error e, db)
  | .ok user =>
    let r : Report :=
      { id := db.nextReportId
        caption := caption
        imageUrl := "uploads/" ++ safe_filename now filename
        latitude := latitude
        longitude := longitude
        category := category
        status := ReportStatus.pending
        isEmergency := is_emergency
        timestamp := now
        ownerId := user.id
        communityId := user.communityId }
    (.ok r, { db with reports := db.reports ++ [r],
                      nextReportId := db.nextReportId + 1 })

/-- Comparison used to model `order_by(models.Report.timestamp.desc())`:
newer (larger) timestamps first. -/
def reportLE (a b : Report) : Bool :=
  Nat.ble b.timestamp a.timestamp

/-- `get_reports` in `main.py` (`GET /api/reports`): admins see every
report, other users only rows whose `owner_id` is theirs; both queries are
ordered by creation timestamp descending. -/
def get_reports (token : Token) (db : DB) : Except HttpError (List Report) :=
  match get_current_user token db with
  | .error e => .error e
  | .ok user =>
    if user.role = UserRole.admin then
      .ok (db.reports.mergeSort reportLE)
    else
      .ok ((db.reports.filter fun r => r.ownerId == user.id).mergeSort reportLE)

/-- Response body of a successful `POST /api/reports/{id}/status`. -/
structure StatusResponse where
  message : String
  new_status : ReportStatus
deriving DecidableEq, Repr

/-- `update_report_status` in `main.py` (`POST /api/reports/{id}/status`):
403 unless the freshly loaded user is an admin, 404 when the report id is
unknown, otherwise the row's status column is overwritten with the
requested value. -/
def update_report_status (report_id : Nat) (new_status : ReportStatus)
    (token : Token) (db : DB) : Except HttpError StatusResponse × DB :=
  match get_current_user token db with
  | .error e => (.error e, db)
  | .ok user =>
    if user.role ≠ UserRole.admin then
      (.error ⟨403, "Only admins can update status."⟩, db)
    else
      match db.reports.find? (fun r => r.id == report_id) with
      | none => (.error ⟨404, "Report not found."⟩, db)
      | some _ =>
        (.ok ⟨"Status updated successfully", new_status⟩,
          { db with reports := db.reports.map fun r =>
              if r.id == report_id then { r with status := new_status } else r })

/-- `submit_feedback` in `main.py` (`POST /api/reports/{id}/feedback`):
403 when the report is missing or not owned by the caller, 400 before
resolution, 400 when a feedback row for the report already exists,
otherwise one feedback row owned by the caller is inserted. -/
def submit_feedback (report_id : Nat) (rating : Int) (comment : Option String)
    (token : Token) (now : Nat) (db : DB) : Except HttpError String × DB :=
  match get_current_user token db with
  | .error e => (.error e, db)
  | .ok user =>
    match db.reports.find? (fun r => r.id == report_id) with
    | none => (.error ⟨403, "You can only give feedback on your own reports."⟩, db)
    | some r =>
      if r.ownerId ≠ user.id then
        (.error ⟨403, "You can only give feedback on your own reports."⟩, db)
      else if r.status ≠ ReportStatus.resolved then
        (.error ⟨400, "Cannot give feedback until report is resolved."⟩, db)
      else
        match db.feedbacks.find? (fun f => f.reportId == report_id) with
        | some _ =>
          (.error ⟨400, "Feedback has already been submitted for this report."⟩, db)
        | none =>
          let f : Feedback :=
            { id := db.nextFeedbackId
              rating := rating
              comment := comment
              timestamp := now
              reportId := report_id
              ownerId := user.id }
          (.ok "Feedback submitted successfully.",
            { db with feedbacks := db.feedbacks ++ [f],
                      nextFeedbackId := db.nextFeedbackId + 1 })

/-- One API request, as consumed by the mutating and reading handlers. -/
inductive Request where
  | register (email full_name password : String)
  | login (email password user_type : String)
  | createReport (token : Token) (caption : String) (latitude longitude : Int)
      (category : ReportCategory) (is_emergency : Bool) (filename : String) (now : Nat)
  | listReports (token : Token)
  | updateStatus (report_id : Nat) (new_status : ReportStatus) (token : Token)
  | giveFeedback (report_id : Nat) (rating : Int) (comment : Option String)
      (token : Token) (now : Nat)
deriving Repr

/-- Database effect of one request (`GET` handlers and `/token` never
write). -/
def step (adminEmail : String) (db : DB) : Request → DB
  | .register e f p => (register_user adminEmail e f p db).2
  | .login _ _ _ => db
  | .createReport t c la lo cat em fn now => (create_report t c la lo cat em fn now db).2
  | .listReports _ => db
  | .updateStatus rid ns t => (update_report_status rid ns t db).2
  | .giveFeedback rid rat cm t now => (submit_feedback rid rat cm t now db).2

/-- Database reached after a sequence of requests. -/
def execTrace (adminEmail : String) (db : DB) : List Request → DB
  | [] => db
  | r :: rs => execTrace adminEmail (step adminEmail db r) rs

/-- Database produced by the startup bootstrap `create_super_user`: the
default community (id 1) and the configured admin account. -/
def initDB (adminEmail adminPassword : String) : DB :=
  { users := [{ id := 1
                email := adminEmail
                hashedPassword := get_password_hash adminPassword
                fullName := "Municipal Admin"
                communityId := 1
                isActive := true
                role := UserRole.admin }]
    communities := [{ id := 1, name := "Downtown", city := "Pimpri-Chinchwad" }]
    reports := []
    feedbacks := []
    nextUserId := 2
    nextReportId := 1
    nextFeedbackId := 1 }

/-! ### Filename sanitisation (supporting lemmas for the upload path) -/

/-- Decides whether a character list contains two adjacent dots, i.e. the
substring `".."`. -/
def hasDD : List Char → Bool
  | [] => false
  | [_] => false
  | a :: b :: rest => (a = '.' ∧ b = '.') || hasDD (b :: rest)

theorem replaceDD_head (l : List Char) (h : l.head? ≠ some '.') :
    (replaceDD l).head? ≠ some '.' := by
  match l with
  | [] => simp [replaceDD]
  | [c] => simpa [replaceDD] using h
  | a :: b :: rest =>
    simp only [List.head?] at h
    rw [replaceDD]
    rw [if_neg]
    · simpa using h
    · rintro ⟨ha, hb⟩
      exact h (by simp [ha])

theorem hasDD_replaceDD (l : List Char) : hasDD (replaceDD l) = false := by
  induction l using replaceDD.induct with
  | case1 => rfl
  | case2 c => rfl
  | case3 a b rest hab ih =>
    rw [replaceDD, if_pos hab]
    exact ih
  | case4 a b rest hab ih =>
    rw [replaceDD, if_neg hab]
    rcases hout : replaceDD (b :: rest) with _ | ⟨d, out⟩
    · rfl
    · have hd : d ≠ '.' ∨ a ≠ '.' := by
        by_cases ha : a = '.'
        · left
          have hb : b ≠ '.' := fun hb => hab ⟨ha, hb⟩
          have hh := replaceDD_head (b :: rest) (by simpa using hb)
          rw [hout] at hh
          simpa using hh
        · right; exact ha
      rw [hasDD]
      rw [← hout, ih]
      rcases hd with hd | ha
      · simp [hd]
      · simp [ha]

theorem hasDD_false_no_dotdot_split : ∀ (xs l ys : List Char), hasDD l = false →
    l ≠ xs ++ '.' :: '.' :: ys := by
  intro xs
  induction xs with
  | nil =>
    intro l ys h hl
    subst hl
    simp [hasDD] at h
  | cons x xs ih =>
    intro l ys h hl
    subst hl
    rcases hxs : xs ++ '.' :: '.' :: ys with _ | ⟨b, rest⟩
    · exact absurd hxs (by simp)
    · rw [List.cons_append, hxs, hasDD, Bool.or_eq_false_iff] at h
      exact ih _ ys (hxs.symm ▸ h.2) rfl

theorem hasDD_append_of : ∀ (xs ys : List Char), (∀ c ∈ xs, c ≠ '.') →
    hasDD ys = false → hasDD (xs ++ ys) = false
  | [], ys, _, hys => hys
  | [x], ys, hxs, hys => by
    rcases ys with _ | ⟨d, ys'⟩
    · rfl
    · have hx : x ≠ '.' := hxs x (by simp)
      simp only [List.singleton_append, hasDD]
      simp [hx, hys]
  | x1 :: x2 :: xs', ys, hxs, hys => by
    have h2 : ∀ c ∈ x2 :: xs', c ≠ '.' := by
      intro c hc; exact hxs c (List.mem_cons_of_mem _ hc)
    have hrec := hasDD_append_of (x2 :: xs') ys h2 hys
    have h1 : x1 ≠ '.' := hxs x1 (by simp)
    simp only [List.cons_append] at hrec ⊢
    rw [hasDD]
    simp [h1, hrec]

theorem digitChar_ne_dot (m : Nat) : Nat.digitChar m ≠ '.' := by
  rcases Nat.lt_or_ge m 16 with h | h
  · interval_cases m <;> decide
  · unfold Nat.digitChar
    repeat rw [if_neg (by omega)]
    decide

theorem toDigitsCore_ne_dot (b : Nat) : ∀ (fuel n : Nat) (acc : List Char),
    (∀ c ∈ acc, c ≠ '.') → ∀ c ∈ Nat.toDigitsCore b fuel n acc, c ≠ '.' := by
  intro fuel
  induction fuel with
  | zero => intro n acc h; simpa [Nat.toDigitsCore] using h
  | succ fuel ih =>
    intro n acc h
    rw [Nat.toDigitsCore]
    have hacc : ∀ c ∈ Nat.digitChar (n % b) :: acc, c ≠ '.' := by
      intro c hc
      rcases List.mem_cons.mp hc with h1 | h2
      · subst h1; exact digitChar_ne_dot _
      · exact h c h2
    split
    · exact hacc
    · exact ih _ _ hacc

theorem repr_ne_dot (n : Nat) : ∀ c ∈ (Nat.repr n).data, c ≠ '.' := by
  intro c hc
  have h0 : (Nat.repr n).data = Nat.toDigits 10 n := rfl
  rw [h0, Nat.toDigits] at hc
  exact toDigitsCore_ne_dot 10 (n + 1) n [] (by simp) c hc

theorem safe_filename_data (now : Nat) (filename : String) :
    (safe_filename now filename).data =
      (Nat.repr now).data ++ '_' :: replaceDD filename.data := by
  simp [safe_filename, pyReplaceDD, String.data_append]

theorem safe_filename_hasDD (now : Nat) (filename : String) :
    hasDD (safe_filename now filename).data = false := by
  rw [safe_filename_data]
  have h1 : (Nat.repr now).data ++ '_' :: replaceDD filename.data =
      ((Nat.repr now).data ++ ['_']) ++ replaceDD filename.data := by
    simp
  rw [h1]
  apply hasDD_append_of
  · intro c hc
    rcases List.mem_append.mp hc with h2 | h2
    · exact repr_ne_dot now c h2
    · simp only [List.mem_singleton] at h2
      subst h2; decide
  · exact hasDD_replaceDD _

/-! ### Status updates -/

theorem find?_status_map (l : List Report) (rid : Nat) (ns : ReportStatus) :
    (l.map fun r => if r.id == rid then { r with status := ns } else r).find?
        (fun r => r.id == rid) =
      (l.find? (fun r => r.id == rid)).map fun r => { r with status := ns } := by
  induction l with
  | nil => rfl
  | cons x l ih =>
    cases hb : x.id == rid with
    | true =>
      simp only [List.map_cons, if_pos hb, List.find?]
      simp [hb]
    | false =>
      simp only [List.map_cons, if_neg (by simp [hb] : ¬ (x.id == rid) = true),
        List.find?]
      simp only [hb]
      exact ih

/-- Bootstrap admin account used in concrete scenarios. -/
def adminUser1 : User :=
  { id := 1
    email := "admin@example.com"
    hashedPassword := get_password_hash "DefaultAdminPass123!"
    fullName := "Municipal Admin"
    communityId := 1
    isActive := true
    role := UserRole.admin }

/-- A bearer token issued to `adminUser1` by `POST /token`. -/
def adminToken1 : Token := ⟨some "admin@example.com", UserRole.admin⟩

/-- A report that an admin has already transitioned to `resolved`. -/
def resolvedReport1 : Report :=
  { id := 1
    caption := "pothole"
    imageUrl := "uploads/10_road.jpg"
    latitude := 18
    longitude := 73
    category := ReportCategory.infra
    status := ReportStatus.resolved
    isEmergency := false
    timestamp := 10
    ownerId := 1
    communityId := 1 }

/-- Database holding the admin account and one resolved report. -/
def dbResolved : DB :=
  { users := [adminUser1]
    communities := [{ id := 1, name := "Downtown", city := "Pimpri-Chinchwad" }]
    reports := [resolvedReport1]
    feedbacks := []
    nextUserId := 2
    nextReportId := 2
    nextFeedbackId := 1 }

/-- Claim C1 counterexample: on a database whose only report is `resolved`, an
admin request `POST /api/reports/1/status` with `new_status=pending`
succeeds and transitions the report back to `pending`, so the transition
relation is not monotonic and `resolved` is not terminal. -/
theorem status_not_monotonic_counterexample :
    resolvedReport1.status = ReportStatus.resolved ∧
    resolvedReport1 ∈ dbResolved.reports ∧
    (update_report_status 1 ReportStatus.pending adminToken1 dbResolved).1 =
      Except.ok ⟨"Status updated successfully", ReportStatus.pending⟩ ∧
    ((update_report_status 1 ReportStatus.pending adminToken1 dbResolved).2.reports.map
      fun r => r.status) = [ReportStatus.pending] :=
  ⟨rfl, by simp [dbResolved], rfl, rfl⟩

/-- Claim C1 (amended): status updates are admin-gated but not monotonic.  A
request by a token resolving to an admin on an existing report always
succeeds and overwrites the status column with exactly the requested
value, whatever the current status; in particular `new_status=pending`
moves a `resolved` report back to `pending`. -/
theorem status_update_sets_requested_value (db : DB) (rid : Nat)
    (ns : ReportStatus) (tok : Token) (u : User) (r : Report)
    (hu : get_current_user tok db = Except.ok u)
    (hrole : u.role = UserRole.admin)
    (hr : db.reports.find? (fun x => x.id == rid) = some r) :
    (update_report_status rid ns tok db).1 =
      Except.ok ⟨"Status updated successfully", ns⟩ ∧
    (update_report_status rid ns tok db).2.reports.find? (fun x => x.id == rid) =
      some { r with status := ns } := by
  unfold update_report_status
  rw [hu]
  simp only [if_neg (by simp [hrole] : ¬ u.role ≠ UserRole.admin)]
  rw [hr]
  refine ⟨rfl, ?_⟩
  simp only [find?_status_map, hr]
  rfl

/-- Witness for C1's amended theorem at a concrete resolved report. -/
theorem status_update_sets_requested_value_witness :
    (update_report_status 1 ReportStatus.pending adminToken1 dbResolved).1 =
      Except.ok ⟨"Status updated successfully", ReportStatus.pending⟩ ∧
    (update_report_status 1 ReportStatus.pending adminToken1 dbResolved).2.reports.find?
        (fun x => x.id == 1) =
      some { resolvedReport1 with status := ReportStatus.pending } :=
  status_update_sets_requested_value dbResolved 1 ReportStatus.pending adminToken1
    adminUser1 resolvedReport1 rfl rfl rfl

/-- Claim C2: a request to `POST /api/reports/{id}/status` whose token resolves
to a non-admin user is rejected with 403 and leaves the whole database
unchanged, and every successful status update was made by a token
resolving to an admin user. -/
theorem status_update_admin_gated (db : DB) (rid : Nat) (ns : ReportStatus)
    (tok : Token) :
    (∀ u, get_current_user tok db = Except.ok u → u.role ≠ UserRole.admin →
      (update_report_status rid ns tok db).1 =
        Except.error ⟨403, "Only admins can update status."⟩ ∧
      (update_report_status rid ns tok db).2 = db) ∧
    (∀ resp, (update_report_status rid ns tok db).1 = Except.ok resp →
      ∃ u, get_current_user tok db = Except.ok u ∧ u.role = UserRole.admin) := by
  constructor
  · intro u hu hrole
    unfold update_report_status
    simp only [hu]
    rw [if_pos hrole]
    exact ⟨rfl, rfl⟩
  · intro resp hok
    unfold update_report_status at hok
    cases hu : get_current_user tok db with
    | error e => simp only [hu] at hok; simp at hok
    | ok u =>
      simp only [hu] at hok
      refine ⟨u, rfl, ?_⟩
      by_cases hrole : u.role = UserRole.admin
      · exact hrole
      · rw [if_pos hrole] at hok
        simp at hok

/-- Witness for C2: the bootstrap database rejects a status update through
a token of a freshly registered (non-admin) user. -/
theorem status_update_admin_gated_witness :
    (update_report_status 1 ReportStatus.resolved ⟨some "alice@example.com", UserRole.user⟩
        (step "admin@example.com" (initDB "admin@example.com" "pw")
          (Request.register "alice@example.com" "Alice" "secret"))).1 =
      Except.error ⟨403, "Only admins can update status."⟩ :=
  ((status_update_admin_gated
      (step "admin@example.com" (initDB "admin@example.com" "pw")
        (Request.register "alice@example.com" "Alice" "secret"))
      1 ReportStatus.resolved ⟨some "alice@example.com", UserRole.user⟩).1
    { id := 2
      email := "alice@example.com"
      hashedPassword := get_password_hash "secret"
      fullName := "Alice"
      communityId := 1
      isActive := true
      role := UserRole.user }
    rfl (by simp)).1

/-! ### Which role does authorization read: token claim or user row? -/

/-- Resident Bob, owner of `bobReport1`. -/
def bobUser1 : User :=
  { id := 2
    email := "bob@example.com"
    hashedPassword := get_password_hash "bobpw"
    fullName := "Bob"
    communityId := 1
    isActive := true
    role := UserRole.user }

/-- A pending report owned by Bob. -/
def bobReport1 : Report :=
  { id := 1
    caption := "overflowing bin"
    imageUrl := "uploads/5_bin.jpg"
    latitude := 18
    longitude := 73
    category := ReportCategory.waste
    status := ReportStatus.pending
    isEmergency := false
    timestamp := 5
    ownerId := 2
    communityId := 1 }

/-- Database where Eve's stored role is `admin`. -/
def eveAdminDB : DB :=
  { users := [{ id := 1
                email := "eve@example.com"
                hashedPassword := get_password_hash "evepw"
                fullName := "Eve"
                communityId := 1
                isActive := true
                role := UserRole.admin }, bobUser1]
    communities := [{ id := 1, name := "Downtown", city := "Pimpri-Chinchwad" }]
    reports := [bobReport1]
    feedbacks := []
    nextUserId := 3
    nextReportId := 2
    nextFeedbackId := 1 }

/-- The same database except that Eve's stored role is `user`. -/
def eveUserDB : DB :=
  { eveAdminDB with
    users := [{ id := 1
                email := "eve@example.com"
                hashedPassword := get_password_hash "evepw"
                fullName := "Eve"
                communityId := 1
                isActive := true
                role := UserRole.user }, bobUser1] }

/-- A token for Eve whose embedded role claim says `admin`. -/
def eveToken : Token := ⟨some "eve@example.com", UserRole.admin⟩

/-- Claim C4 counterexample: at both role-gated call sites
(`update_report_status` and `get_reports`) the very same token — whose
role claim is `admin` — produces different authorization outcomes on two
stores that differ only in Eve's stored role, so no call site trusts the
token's role claim over the database row. -/
theorem role_from_store_counterexample :
    (get_user_by_email eveAdminDB "eve@example.com").map (fun u => u.role) =
      some UserRole.admin ∧
    (get_user_by_email eveUserDB "eve@example.com").map (fun u => u.role) =
      some UserRole.user ∧
    (update_report_status 1 ReportStatus.resolved eveToken eveAdminDB).1 =
      Except.ok ⟨"Status updated successfully", ReportStatus.resolved⟩ ∧
    (update_report_status 1 ReportStatus.resolved eveToken eveUserDB).1 =
      Except.error ⟨403, "Only admins can update status."⟩ ∧
    get_reports eveToken eveAdminDB = Except.ok [bobReport1] ∧
    get_reports eveToken eveUserDB = Except.ok [] := by
  refine ⟨rfl, rfl, rfl, rfl, ?_, ?_⟩
  · simp [get_reports, get_current_user, get_user_by_email, eveToken,
      eveAdminDB, bobUser1, List.find?]
  · simp [get_reports, get_current_user, get_user_by_email, eveToken,
      eveUserDB, eveAdminDB, bobUser1, bobReport1, List.find?]

/-- Claim C4 (amended): every authorization decision reads the role of the
freshly loaded user row; the role claim embedded in the token is never
consulted, so each handler's outcome is invariant under changing the
token's role claim (and, by `role_from_store_counterexample`, does change
when the stored role changes). -/
theorem handlers_ignore_token_role_claim (s : Option String) (r1 r2 : UserRole)
    (db : DB) (rid : Nat) (ns : ReportStatus) (rating : Int) (cm : Option String)
    (now : Nat) (caption filename : String) (la lo : Int) (cat : ReportCategory)
    (em : Bool) :
    get_current_user ⟨s, r1⟩ db = get_current_user ⟨s, r2⟩ db ∧
    update_report_status rid ns ⟨s, r1⟩ db = update_report_status rid ns ⟨s, r2⟩ db ∧
    get_reports ⟨s, r1⟩ db = get_reports ⟨s, r2⟩ db ∧
    submit_feedback rid rating cm ⟨s, r1⟩ now db =
      submit_feedback rid rating cm ⟨s, r2⟩ now db ∧
    create_report ⟨s, r1⟩ caption la lo cat em filename now db =
      create_report ⟨s, r2⟩ caption la lo cat em filename now db :=
  ⟨rfl, rfl, rfl, rfl, rfl⟩

/-! ### Error codes for unknown report ids -/

/-- Resident Alice. -/
def aliceUser1 : User :=
  { id := 1
    email := "alice@example.com"
    hashedPassword := get_password_hash "secret"
    fullName := "Alice"
    communityId := 1
    isActive := true
    role := UserRole.user }

/-- A bearer token issued to Alice. -/
def aliceToken1 : Token := ⟨some "alice@example.com", UserRole.user⟩

/-- Database with Alice registered and no report rows at all. -/
def dbNoReports : DB :=
  { users := [aliceUser1]
    communities := [{ id := 1, name := "Downtown", city := "Pimpri-Chinchwad" }]
    reports := []
    feedbacks := []
    nextUserId := 2
    nextReportId := 1
    nextFeedbackId := 1 }

/-- Claim C5 counterexample: an authenticated `POST /api/reports/99/feedback`
naming a report id that does not exist answers 403 (the ownership error),
not the 404 the claim demands. -/
theorem missing_report_feedback_403_counterexample :
    dbNoReports.reports.find? (fun r => r.id == 99) = none ∧
    get_current_user aliceToken1 dbNoReports = Except.ok aliceUser1 ∧
    (submit_feedback 99 5 none aliceToken1 0 dbNoReports).1 =
      Except.error ⟨403, "You can only give feedback on your own reports."⟩ :=
  ⟨rfl, rfl, rfl⟩

/-- Claim C5 (amended): when the named report id does not exist,
`POST /api/reports/{id}/status` answers 404 only for admin callers (403
for everyone else, since the role gate fires first), and
`POST /api/reports/{id}/feedback` answers 403, never 404. -/
theorem missing_report_error_codes (db : DB) (rid : Nat) (ns : ReportStatus)
    (tok : Token) (u : User) (rating : Int) (cm : Option String) (now : Nat)
    (hu : get_current_user tok db = Except.ok u)
    (hnone : db.reports.find? (fun r => r.id == rid) = none) :
    (u.role = UserRole.admin →
      (update_report_status rid ns tok db).1 =
        Except.error ⟨404, "Report not found."⟩) ∧
    (u.role ≠ UserRole.admin →
      (update_report_status rid ns tok db).1 =
        Except.error ⟨403, "Only admins can update status."⟩) ∧
    (submit_feedback rid rating cm tok now db).1 =
      Except.error ⟨403, "You can only give feedback on your own reports."⟩ := by
  refine ⟨?_, ?_, ?_⟩
  · intro hrole
    unfold update_report_status
    simp only [hu]
    rw [if_neg (by simp [hrole] : ¬ u.role ≠ UserRole.admin)]
    rw [hnone]
  · intro hrole
    unfold update_report_status
    simp only [hu]
    rw [if_pos hrole]
  · unfold submit_feedback
    simp only [hu]
    rw [hnone]

/-- Witness for C5's amended theorem: an admin asking about the missing
report id 99 gets 404, and Alice's feedback on a missing id gets 403. -/
theorem missing_report_error_codes_witness :
    (update_report_status 99 ReportStatus.resolved adminToken1 dbResolved).1 =
      Except.error ⟨404, "Report not found."⟩ ∧
    (submit_feedback 99 5 none aliceToken1 0 dbNoReports).1 =
      Except.error ⟨403, "You can only give feedback on your own reports."⟩ :=
  ⟨(missing_report_error_codes dbResolved 99 ReportStatus.resolved adminToken1
      adminUser1 5 none 0 rfl rfl).1 rfl,
    (missing_report_error_codes dbNoReports 99 ReportStatus.resolved aliceToken1
      aliceUser1 5 none 0 rfl rfl).2.2⟩

/-! ### Report listing -/

theorem reportLE_trans (a b c : Report) (h1 : reportLE a b) (h2 : reportLE b c) :
    reportLE a c := by
  simp only [reportLE, Nat.ble_eq] at h1 h2 ⊢
  omega

theorem reportLE_total (a b : Report) : reportLE a b || reportLE b a := by
  simp only [reportLE]
  rcases Nat.le_total b.timestamp a.timestamp with h | h
  · simp [Nat.ble_eq, h]
  · simp [Nat.ble_eq, h]

/-- Claim C6: for a valid token (whose role claim matches the stored role, as
holds for every token the service issues), `GET /api/reports` with a
user-role token returns exactly the reports owned by the token's subject,
and with an admin-role token returns all reports, ordered by creation
timestamp descending. -/
theorem get_reports_scoping (db : DB) (tok : Token) (u : User)
    (hu : get_current_user tok db = Except.ok u) (hr : tok.role = u.role) :
    (tok.role = UserRole.user → ∃ l, get_reports tok db = Except.ok l ∧
      l.Perm (db.reports.filter fun r => r.ownerId == u.id) ∧
      (∀ r, r ∈ l ↔ r ∈ db.reports ∧ r.ownerId = u.id)) ∧
    (tok.role = UserRole.admin → ∃ l, get_reports tok db = Except.ok l ∧
      l.Perm db.reports ∧ l.Pairwise fun a b => b.timestamp ≤ a.timestamp) := by
  constructor
  · intro ht
    have hrole : u.role = UserRole.user := by rw [← hr, ht]
    refine ⟨(db.reports.filter fun r => r.ownerId == u.id).mergeSort reportLE,
      ?_, List.mergeSort_perm _ _, ?_⟩
    · unfold get_reports
      simp only [hu]
      rw [if_neg (by simp [hrole])]
    · intro r
      rw [(List.mergeSort_perm _ _).mem_iff]
      simp [List.mem_filter]
  · intro ht
    have hrole : u.role = UserRole.admin := by rw [← hr, ht]
    refine ⟨db.reports.mergeSort reportLE, ?_, List.mergeSort_perm _ _, ?_⟩
    · unfold get_reports
      simp only [hu]
      rw [if_pos hrole]
    · have hs := @List.sorted_mergeSort _ reportLE reportLE_trans reportLE_total
        db.reports
      exact hs.imp fun h => by simpa [reportLE, Nat.ble_eq] using h

/-- Witness for C6 on a concrete store: Eve's admin token lists all the
reports, sorted by timestamp descending. -/
theorem get_reports_scoping_witness :
    ∃ l, get_reports eveToken eveAdminDB = Except.ok l ∧
      l.Perm eveAdminDB.reports ∧ l.Pairwise fun a b => b.timestamp ≤ a.timestamp :=
  (get_reports_scoping eveAdminDB eveToken
      { id := 1
        email := "eve@example.com"
        hashedPassword := get_password_hash "evepw"
        fullName := "Eve"
        communityId := 1
        isActive := true
        role := UserRole.admin }
      rfl rfl).2 rfl

/-! ### Registration -/

/-- Claim C7: `POST /register` never creates a user for the reserved admin email
(as the code identifies it, ignoring letter case) and never creates a
second user for an already-registered email — in both cases the form is
re-rendered with a page-level error and the user table is unchanged; for
any other email a `user`-role account is created and the response is a 303
redirect to `/login`. -/
theorem register_guards (adminEmail email full_name password : String) (db : DB) :
    (str_lower email = str_lower adminEmail →
      register_user adminEmail email full_name password db =
        (RegisterResponse.formError "This email is reserved.", db)) ∧
    (str_lower email ≠ str_lower adminEmail →
      (∃ u0, get_user_by_email db email = some u0) →
      register_user adminEmail email full_name password db =
        (RegisterResponse.formError "Email already registered", db)) ∧
    (str_lower email ≠ str_lower adminEmail →
      get_user_by_email db email = none →
      register_user adminEmail email full_name password db =
        (RegisterResponse.redirect "/login" 303,
          { db with
            users := db.users ++
              [{ id := db.nextUserId
                 email := email
                 hashedPassword := get_password_hash password
                 fullName := full_name
                 communityId := 1
                 isActive := true
                 role := UserRole.user }]
            nextUserId := db.nextUserId + 1 })) := by
  refine ⟨?_, ?_, ?_⟩
  · intro h
    unfold register_user
    rw [if_pos h]
  · rintro h ⟨u0, hu0⟩
    unfold register_user
    rw [if_neg h]
    simp only [hu0]
  · intro h hnone
    unfold register_user
    rw [if_neg h]
    simp only [hnone]

/-- Witness for C7: the three registration outcomes on a concrete store
(reserved email rejected, duplicate rejected, fresh email created). -/
theorem register_guards_witness :
    register_user "admin@example.com" "admin@example.com" "X" "pw" dbNoReports =
      (RegisterResponse.formError "This email is reserved.", dbNoReports) ∧
    register_user "admin@example.com" "alice@example.com" "X" "pw" dbNoReports =
      (RegisterResponse.formError "Email already registered", dbNoReports) ∧
    (register_user "admin@example.com" "carol@example.com" "Carol" "pw" dbNoReports).1 =
      RegisterResponse.redirect "/login" 303 :=
  ⟨(register_guards "admin@example.com" "admin@example.com" "X" "pw" dbNoReports).1 rfl,
    (register_guards "admin@example.com" "alice@example.com" "X" "pw" dbNoReports).2.1
      (by decide) ⟨aliceUser1, rfl⟩,
    by
      rw [(register_guards "admin@example.com" "carol@example.com" "Carol" "pw"
        dbNoReports).2.2 (by decide) rfl]⟩

/-- ASCII-only lowercasing, written independently of the code's
`str_lower`, to state case-insensitivity as a specification-level notion. -/
def asciiLower (c : Char) : Char :=
  if 'A' ≤ c ∧ c ≤ 'Z' then Char.ofNat (c.toNat + 32) else c

/-- Two strings are equal ignoring ASCII letter case. -/
def AsciiCaseEq (s t : String) : Prop :=
  s.data.map asciiLower = t.data.map asciiLower

instance (s t : String) : Decidable (AsciiCaseEq s t) := by
  unfold AsciiCaseEq
  infer_instance

theorem asciiLower_eq_toLower (c : Char) : asciiLower c = c.toLower := by
  simp only [asciiLower, Char.toLower]
  have hiff : ('A' ≤ c ∧ c ≤ 'Z') ↔ (c.toNat ≥ 65 ∧ c.toNat ≤ 90) := by
    rw [Char.le_def, Char.le_def, UInt32.le_def, UInt32.le_def,
      BitVec.le_def, BitVec.le_def]
    exact Iff.rfl
  by_cases h : 'A' ≤ c ∧ c ≤ 'Z'
  · rw [if_pos h, if_pos (hiff.mp h)]
  · rw [if_neg h, if_neg (fun hc => h (hiff.mpr hc))]

theorem str_lower_eq_of_asciiCaseEq {s t : String} (h : AsciiCaseEq s t) :
    str_lower s = str_lower t := by
  unfold AsciiCaseEq at h
  unfold str_lower
  have hs : s.data.map Char.toLower = t.data.map Char.toLower := by
    calc s.data.map Char.toLower
        = s.data.map asciiLower := by
          apply List.map_congr_left
          intro c _
          exact (asciiLower_eq_toLower c).symm
      _ = t.data.map asciiLower := h
      _ = t.data.map Char.toLower := by
          apply List.map_congr_left
          intro c _
          exact asciiLower_eq_toLower c
  rw [hs]

/-- Claim C9: the reserved-email rejection is case-insensitive — any submitted
email equal to the configured admin email up to ASCII letter case is
answered with the reserved-email form error, and no user row is created
(the whole database is returned unchanged). -/
theorem reserved_email_ascii_case_insensitive (adminEmail email full_name
    password : String) (db : DB) (h : AsciiCaseEq email adminEmail) :
    register_user adminEmail email full_name password db =
      (RegisterResponse.formError "This email is reserved.", db) := by
  unfold register_user
  rw [if_pos (str_lower_eq_of_asciiCaseEq h)]

/-- Witness for C9: an upper-cased variant of the admin email is rejected. -/
theorem reserved_email_ascii_case_insensitive_witness :
    register_user "admin@example.com" "Admin@EXAMPLE.com" "X" "pw" dbNoReports =
      (RegisterResponse.formError "This email is reserved.", dbNoReports) :=
  reserved_email_ascii_case_insensitive "admin@example.com" "Admin@EXAMPLE.com"
    "X" "pw" dbNoReports (by decide)

/-! ### Login -/

/-- Claim C10: the `user_type` form field only gates admin access and never
blocks an admin — with a stored admin account and the correct password,
any `user_type` other than `"admin"` still succeeds, returning
`user_role = admin` and a token whose role claim is `admin`. -/
theorem admin_login_any_user_type (db : DB) (email password user_type : String)
    (u : User) (hu : get_user_by_email db email = some u)
    (hrole : u.role = UserRole.admin)
    (hpw : verify_password password u.hashedPassword = true)
    (ht : user_type ≠ "admin") :
    login_for_access_token db email password user_type =
      Except.ok ⟨⟨some u.email, UserRole.admin⟩, "bearer", UserRole.admin⟩ := by
  unfold login_for_access_token
  simp only [hu]
  rw [if_neg (by simp [hpw])]
  rw [if_neg (by simp [ht])]
  rw [hrole]

/-- Witness for C10: the bootstrap admin logging in with `user_type=user`. -/
theorem admin_login_any_user_type_witness :
    login_for_access_token dbResolved "admin@example.com" "DefaultAdminPass123!"
        "user" =
      Except.ok ⟨⟨some "admin@example.com", UserRole.admin⟩, "bearer",
        UserRole.admin⟩ :=
  admin_login_any_user_type dbResolved "admin@example.com" "DefaultAdminPass123!"
    "user" adminUser1 rfl rfl rfl (by decide)

/-! ### Feedback lifecycle: invariants of every reachable database -/

/-- Structural invariant maintained by every handler: report primary keys
are unique and below the autoincrement counter, at most one feedback row
references any report, every feedback row references an existing report,
and the feedback owner column always equals the owner column of the
referenced report. -/
structure Inv (db : DB) : Prop where
  report_id_lt : ∀ r ∈ db.reports, r.id < db.nextReportId
  report_id_nodup : (db.reports.map fun r => r.id).Nodup
  fb_reportId_nodup : (db.feedbacks.map fun f => f.reportId).Nodup
  fb_owner : ∀ f ∈ db.feedbacks, ∀ r ∈ db.reports, r.id = f.reportId →
    f.ownerId = r.ownerId
  fb_report_exists : ∀ f ∈ db.feedbacks, ∃ r ∈ db.reports, r.id = f.reportId

theorem Inv.of_frame {db db' : DB} (hr : db'.reports = db.reports)
    (hf : db'.feedbacks = db.feedbacks) (hn : db'.nextReportId = db.nextReportId)
    (h : Inv db) : Inv db' := by
  refine ⟨?_, ?_, ?_, ?_, ?_⟩ <;> simp only [hr, hf, hn]
  · exact h.report_id_lt
  · exact h.report_id_nodup
  · exact h.fb_reportId_nodup
  · exact h.fb_owner
  · exact h.fb_report_exists

theorem register_user_frame (adminEmail e f p : String) (db : DB) :
    (register_user adminEmail e f p db).2.reports = db.reports ∧
    (register_user adminEmail e f p db).2.feedbacks = db.feedbacks ∧
    (register_user adminEmail e f p db).2.nextReportId = db.nextReportId := by
  unfold register_user
  split
  · exact ⟨rfl, rfl, rfl⟩
  · cases get_user_by_email db e <;> exact ⟨rfl, rfl, rfl⟩

theorem inv_register (adminEmail e f p : String) (db : DB) (h : Inv db) :
    Inv (register_user adminEmail e f p db).2 := by
  obtain ⟨h1, h2, h3⟩ := register_user_frame adminEmail e f p db
  exact Inv.of_frame h1 h2 h3 h

theorem inv_create_report (t : Token) (c : String) (la lo : Int)
    (cat : ReportCategory) (em : Bool) (fn : String) (now : Nat) (db : DB)
    (h : Inv db) : Inv (create_report t c la lo cat em fn now db).2 := by
  unfold create_report
  cases hcu : get_current_user t db with
  | error e => exact h
  | ok u =>
    refine ⟨?_, ?_, ?_, ?_, ?_⟩
    · intro r hr
      rcases List.mem_append.mp hr with h1 | h1
      · have := h.report_id_lt r h1
        show r.id < db.nextReportId + 1
        omega
      · simp only [List.mem_singleton] at h1
        subst h1
        show db.nextReportId < db.nextReportId + 1
        omega
    · simp only [List.map_append, List.map_cons, List.map_nil]
      rw [(List.perm_append_singleton _ _).nodup_iff, List.nodup_cons]
      refine ⟨?_, h.report_id_nodup⟩
      intro hmem
      rcases List.mem_map.mp hmem with ⟨r, hr, hid⟩
      have := h.report_id_lt r hr
      omega
    · exact h.fb_reportId_nodup
    · intro fb hfb r hr hid
      rcases List.mem_append.mp hr with h1 | h1
      · exact h.fb_owner fb hfb r h1 hid
      · simp only [List.mem_singleton] at h1
        subst h1
        obtain ⟨r0, hr0, hr0id⟩ := h.fb_report_exists fb hfb
        have := h.report_id_lt r0 hr0
        have hid2 : db.nextReportId = fb.reportId := hid
        omega
    · intro fb hfb
      obtain ⟨r0, hr0, hr0id⟩ := h.fb_report_exists fb hfb
      exact ⟨r0, List.mem_append_left _ hr0, hr0id⟩

theorem status_map_preserves (rid : Nat) (ns : ReportStatus) (r : Report) :
    ((if r.id == rid then { r with status := ns } else r) : Report).id = r.id ∧
    ((if r.id == rid then { r with status := ns } else r) : Report).ownerId =
      r.ownerId := by
  split <;> exact ⟨rfl, rfl⟩

theorem inv_update_status (rid : Nat) (ns : ReportStatus) (t : Token) (db : DB)
    (h : Inv db) : Inv (update_report_status rid ns t db).2 := by
  unfold update_report_status
  cases hcu : get_current_user t db with
  | error e => exact h
  | ok u =>
    simp only
    by_cases hrole : u.role ≠ UserRole.admin
    · rw [if_pos hrole]; exact h
    · rw [if_neg hrole]
      cases hfr : db.reports.find? (fun r => r.id == rid) with
      | none => exact h
      | some r0 =>
        simp only
        refine ⟨?_, ?_, ?_, ?_, ?_⟩
        · intro r hr
          rcases List.mem_map.mp hr with ⟨r1, hr1, hmap⟩
          rw [← hmap, (status_map_preserves rid ns r1).1]
          exact h.report_id_lt r1 hr1
        · rw [List.map_map]
          have : ((fun r : Report => r.id) ∘ fun r =>
              if r.id == rid then { r with status := ns } else r) =
              fun r : Report => r.id := by
            funext r
            exact (status_map_preserves rid ns r).1
          rw [this]
          exact h.report_id_nodup
        · exact h.fb_reportId_nodup
        · intro fb hfb r hr hid
          rcases List.mem_map.mp hr with ⟨r1, hr1, hmap⟩
          rw [← hmap, (status_map_preserves rid ns r1).2]
          rw [← hmap, (status_map_preserves rid ns r1).1] at hid
          exact h.fb_owner fb hfb r1 hr1 hid
        · intro fb hfb
          obtain ⟨r0', hr0', hr0id⟩ := h.fb_report_exists fb hfb
          refine ⟨(if r0'.id == rid then { r0' with status := ns } else r0'), ?_, ?_⟩
          · exact List.mem_map.mpr ⟨r0', hr0', rfl⟩
          · rw [(status_map_preserves rid ns r0').1]
            exact hr0id

theorem inv_submit_feedback (rid : Nat) (rat : Int) (cm : Option String)
    (t : Token) (now : Nat) (db : DB) (h : Inv db) :
    Inv (submit_feedback rid rat cm t now db).2 := by
  unfold submit_feedback
  cases hcu : get_current_user t db with
  | error e => exact h
  | ok u =>
    simp only
    cases hfr : db.reports.find? (fun r => r.id == rid) with
    | none => exact h
    | some r =>
      simp only
      by_cases how : r.ownerId ≠ u.id
      · rw [if_pos how]; exact h
      · rw [if_neg how]
        by_cases hst : r.status ≠ ReportStatus.resolved
        · rw [if_pos hst]; exact h
        · rw [if_neg hst]
          cases hff : db.feedbacks.find? (fun f => f.reportId == rid) with
          | some f0 => exact h
          | none =>
            simp only
            have hrmem : r ∈ db.reports := List.mem_of_find?_eq_some hfr
            have hrid : r.id = rid := by
              have := List.find?_some hfr
              simpa using this
            have howeq : r.ownerId = u.id := by
              by_contra hc
              exact how hc
            have hnone : ∀ fb ∈ db.feedbacks, fb.reportId ≠ rid := by
              intro fb hfb
              have := List.find?_eq_none.mp hff fb hfb
              simpa using this
            refine ⟨h.report_id_lt, h.report_id_nodup, ?_, ?_, ?_⟩
            · simp only [List.map_append, List.map_cons, List.map_nil]
              rw [(List.perm_append_singleton _ _).nodup_iff, List.nodup_cons]
              refine ⟨?_, h.fb_reportId_nodup⟩
              intro hmem
              rcases List.mem_map.mp hmem with ⟨fb, hfb, hid⟩
              exact hnone fb hfb hid
            · intro fb hfb r' hr' hid
              rcases List.mem_append.mp hfb with h1 | h1
              · exact h.fb_owner fb h1 r' hr' hid
              · simp only [List.mem_singleton] at h1
                subst h1
                simp only at hid ⊢
                have : r' = r :=
                  List.inj_on_of_nodup_map h.report_id_nodup hr' hrmem
                    (by rw [hid, hrid])
                rw [this, howeq]
            · intro fb hfb
              rcases List.mem_append.mp hfb with h1 | h1
              · obtain ⟨r0, hr0, hr0id⟩ := h.fb_report_exists fb h1
                exact ⟨r0, hr0, hr0id⟩
              · simp only [List.mem_singleton] at h1
                subst h1
                exact ⟨r, hrmem, by simpa using hrid⟩

theorem step_inv (adminEmail : String) (db : DB) (req : Request) (h : Inv db) :
    Inv (step adminEmail db req) := by
  cases req with
  | register e f p => exact inv_register adminEmail e f p db h
  | login e p t => exact h
  | createReport t c la lo cat em fn now =>
    exact inv_create_report t c la lo cat em fn now db h
  | listReports t => exact h
  | updateStatus rid ns t => exact inv_update_status rid ns t db h
  | giveFeedback rid rat cm t now => exact inv_submit_feedback rid rat cm t now db h

theorem execTrace_inv (adminEmail : String) (reqs : List Request) (db : DB)
    (h : Inv db) : Inv (execTrace adminEmail db reqs) := by
  induction reqs generalizing db with
  | nil => exact h
  | cons r rs ih => exact ih _ (step_inv adminEmail db r h)

theorem initDB_inv (adminEmail adminPassword : String) :
    Inv (initDB adminEmail adminPassword) := by
  refine ⟨?_, ?_, ?_, ?_, ?_⟩ <;> simp [initDB]

theorem length_filter_le_one_of_nodup_map {α : Type} (f : α → Nat) (a : Nat) :
    ∀ (l : List α), (l.map f).Nodup → (l.filter fun x => f x == a).length ≤ 1 := by
  intro l
  induction l with
  | nil => intro _; simp
  | cons x l ih =>
    intro h
    rw [List.map_cons, List.nodup_cons] at h
    by_cases hx : f x = a
    · rw [List.filter_cons]
      rw [if_pos (by simpa using hx)]
      have hempty : l.filter (fun y => f y == a) = [] := by
        rw [List.filter_eq_nil_iff]
        intro y hy
        simp only [beq_iff_eq]
        intro hya
        exact h.1 (List.mem_map.mpr ⟨y, hy, by rw [hya, hx]⟩)
      rw [hempty]
      simp
    · rw [List.filter_cons]
      rw [if_neg (by simpa using hx)]
      exact ih h.2

/-- Claim C3: feedback on a pending report always fails and writes nothing; a
successful feedback submission implies the caller is the report's owner
and the report is resolved; once a feedback row exists for a report, every
further attempt fails and writes nothing, and an attempt by the report's
owner fails with HTTP 400; consequently, in every database reachable from
the bootstrap state, each report has 0 or 1 feedback rows and every
feedback row's owner equals the owner of the referenced report. -/
theorem feedback_lifecycle :
    (∀ (db : DB) (rid : Nat) (rating : Int) (cm : Option String) (tok : Token)
        (now : Nat) (r : Report),
      db.reports.find? (fun x => x.id == rid) = some r →
      r.status = ReportStatus.pending →
      (∃ e, (submit_feedback rid rating cm tok now db).1 = Except.error e) ∧
      (submit_feedback rid rating cm tok now db).2 = db) ∧
    (∀ (db : DB) (rid : Nat) (rating : Int) (cm : Option String) (tok : Token)
        (now : Nat) (msg : String),
      (submit_feedback rid rating cm tok now db).1 = Except.ok msg →
      ∃ u r, get_current_user tok db = Except.ok u ∧
        db.reports.find? (fun x => x.id == rid) = some r ∧
        r.ownerId = u.id ∧ r.status = ReportStatus.resolved) ∧
    (∀ (db : DB) (rid : Nat) (rating : Int) (cm : Option String) (tok : Token)
        (now : Nat) (f : Feedback), f ∈ db.feedbacks → f.reportId = rid →
      (∃ e, (submit_feedback rid rating cm tok now db).1 = Except.error e) ∧
      (submit_feedback rid rating cm tok now db).2 = db ∧
      (∀ u r, get_current_user tok db = Except.ok u →
        db.reports.find? (fun x => x.id == rid) = some r → r.ownerId = u.id →
        ∃ e, (submit_feedback rid rating cm tok now db).1 = Except.error e ∧
          e.code = 400)) ∧
    (∀ (adminEmail adminPassword : String) (reqs : List Request) (rid : Nat),
      ((execTrace adminEmail (initDB adminEmail adminPassword) reqs).feedbacks.filter
        fun f => f.reportId == rid).length ≤ 1) ∧
    (∀ (adminEmail adminPassword : String) (reqs : List Request) (f : Feedback)
        (r : Report),
      f ∈ (execTrace adminEmail (initDB adminEmail adminPassword) reqs).feedbacks →
      r ∈ (execTrace adminEmail (initDB adminEmail adminPassword) reqs).reports →
      r.id = f.reportId → f.ownerId = r.ownerId) := by
  refine ⟨?_, ?_, ?_, ?_, ?_⟩
  · intro db rid rating cm tok now r hfr hpending
    cases hval : get_current_user tok db with
    | error e =>
      unfold submit_feedback
      simp only [hval]
      exact ⟨⟨e, rfl⟩, trivial⟩
    | ok u =>
      unfold submit_feedback
      simp only [hval, hfr]
      by_cases how : r.ownerId ≠ u.id
      · rw [if_pos how]
        exact ⟨⟨_, rfl⟩, rfl⟩
      · rw [if_neg how, if_pos (by simp [hpending] :
          r.status ≠ ReportStatus.resolved)]
        exact ⟨⟨_, rfl⟩, rfl⟩
  · intro db rid rating cm tok now msg hok
    cases hval : get_current_user tok db with
    | error e =>
      unfold submit_feedback at hok
      simp only [hval] at hok
      simp at hok
    | ok u =>
      unfold submit_feedback at hok
      simp only [hval] at hok
      cases hfr : db.reports.find? (fun x => x.id == rid) with
      | none => simp only [hfr] at hok; simp at hok
      | some r =>
        simp only [hfr] at hok
        by_cases how : r.ownerId ≠ u.id
        · rw [if_pos how] at hok; simp at hok
        · rw [if_neg how] at hok
          by_cases hst : r.status ≠ ReportStatus.resolved
          · rw [if_pos hst] at hok; simp at hok
          · exact ⟨u, r, rfl, rfl, not_not.mp how, not_not.mp hst⟩
  · intro db rid rating cm tok now f hf hfrid
    have hffind : ∃ f0, db.feedbacks.find? (fun x => x.reportId == rid) = some f0 := by
      cases hff : db.feedbacks.find? (fun x => x.reportId == rid) with
      | none =>
        have := List.find?_eq_none.mp hff f hf
        simp [hfrid] at this
      | some f0 => exact ⟨f0, rfl⟩
    obtain ⟨f0, hff⟩ := hffind
    refine ⟨?_, ?_, ?_⟩
    · cases hval : get_current_user tok db with
      | error e =>
        unfold submit_feedback
        simp only [hval]
        exact ⟨e, rfl⟩
      | ok u =>
        unfold submit_feedback
        simp only [hval]
        cases hfr : db.reports.find? (fun x => x.id == rid) with
        | none => exact ⟨_, rfl⟩
        | some r =>
          simp only
          by_cases how : r.ownerId ≠ u.id
          · rw [if_pos how]; exact ⟨_, rfl⟩
          · rw [if_neg how]
            by_cases hst : r.status ≠ ReportStatus.resolved
            · rw [if_pos hst]; exact ⟨_, rfl⟩
            · rw [if_neg hst]
              simp only [hff]
              exact ⟨_, rfl⟩
    · cases hval : get_current_user tok db with
      | error e =>
        unfold submit_feedback
        simp only [hval]
      | ok u =>
        unfold submit_feedback
        simp only [hval]
        cases hfr : db.reports.find? (fun x => x.id == rid) with
        | none => simp only [hfr]
        | some r =>
          simp only [hfr]
          by_cases how : r.ownerId ≠ u.id
          · rw [if_pos how]
          · rw [if_neg how]
            by_cases hst : r.status ≠ ReportStatus.resolved
            · rw [if_pos hst]
            · rw [if_neg hst]
              simp only [hff]
    · intro u r hu hr how
      unfold submit_feedback
      simp only [hu, hr]
      rw [if_neg (by simp [how] : ¬ r.ownerId ≠ u.id)]
      by_cases hst : r.status ≠ ReportStatus.resolved
      · rw [if_pos hst]
        exact ⟨_, rfl, rfl⟩
      · rw [if_neg hst]
        simp only [hff]
        exact ⟨_, rfl, rfl⟩
  · intro adminEmail adminPassword reqs rid
    exact length_filter_le_one_of_nodup_map _ rid _
      (execTrace_inv adminEmail reqs _
        (initDB_inv adminEmail adminPassword)).fb_reportId_nodup
  · intro adminEmail adminPassword reqs f r hf hr hid
    exact (execTrace_inv adminEmail reqs _
      (initDB_inv adminEmail adminPassword)).fb_owner f hf r hr hid

/-- Witness for C3 at a concrete store: feedback on Bob's pending report
fails and changes nothing, and the bootstrap trace satisfies the 0-or-1
feedback bound. -/
theorem feedback_lifecycle_witness :
    ((∃ e, (submit_feedback 1 5 none eveToken 0 eveAdminDB).1 = Except.error e) ∧
      (submit_feedback 1 5 none eveToken 0 eveAdminDB).2 = eveAdminDB) ∧
    ((execTrace "admin@example.com" (initDB "admin@example.com" "pw")
        []).feedbacks.filter fun f => f.reportId == 1).length ≤ 1 :=
  ⟨feedback_lifecycle.1 eveAdminDB 1 5 none eveToken 0 bobReport1 rfl rfl,
    feedback_lifecycle.2.2.2.1 "admin@example.com" "pw" [] 1⟩

/-- Claim C8: the stored upload filename is the original filename with every
`".."` occurrence removed (Python `str.replace` semantics), prefixed by
the integer timestamp and an underscore; in particular the stored
filename never contains the substring `".."`. -/
theorem sanitize_filename_spec (now : Nat) (filename : String) :
    (safe_filename now filename).data =
      (Nat.repr now).data ++ '_' :: replaceDD filename.data ∧
    ∀ xs ys, (safe_filename now filename).data ≠ xs ++ '.' :: '.' :: ys := by
  refine ⟨safe_filename_data now filename, ?_⟩
  intro xs ys
  exact hasDD_false_no_dotdot_split xs _ ys (safe_filename_hasDD now filename)

/-- Witness for C8 at a concrete upload: a traversal filename keeps its
timestamp prefix and loses its dot pair. -/
theorem sanitize_filename_spec_witness :
    (safe_filename 7 "a..b.png").data =
      (Nat.repr 7).data ++ '_' :: replaceDD "a..b.png".data ∧
    (safe_filename 7 "a..b.png").data ≠ ['7'] ++ '.' :: '.' :: [] :=
  ⟨(sanitize_filename_spec 7 "a..b.png").1,
    (sanitize_filename_spec 7 "a..b.png").2 ['7'] []⟩

end CivicConnect
